/-
Verification of the natural-language specification of
`pypeit/scripts/trace_edges.py` against the source.

The script is CLI glue: it resolves inputs (a PypeIt reduction file or a raw
trace file), selects a calibration group and detectors, and for each detector
builds a trace image and runs one of two edge tracers, persisting the result.
All collaborators (numpy, the spectrograph registry, the reduction loader, the
trace-image builder and the two tracers) are modelled as oracles supplied in an
`Env` record; `main` is embedded as a pure function from `Env` and parsed
arguments to the list of performed observable operations (an event trace) and
an `Except`-style outcome mirroring Python exception propagation.
-/
import Mathlib

namespace TraceEdges

/-! ### Basic string / number helpers (embeddings of Python builtins) -/

/-- Little-endian decimal digits of `n`, computed with structural fuel so that
the kernel can evaluate it (`fuel = n` always suffices). -/
def decimalDigitsAux : Nat → Nat → List Nat
  | _, 0 => []
  | 0, _ + 1 => []
  | fuel + 1, n + 1 => ((n + 1) % 10) :: decimalDigitsAux fuel ((n + 1) / 10)

/-- Embedding of Python `str(n)` for a natural number: its decimal digits,
most significant first (the digit list is little-endian, hence the reverse). -/
def decimalRepr (n : Nat) : String :=
  if n = 0 then "0"
  else ((decimalDigitsAux n n).reverse.map (fun d => Char.ofNat (48 + d))).asString

/-- Splitting a character list on a separator character (used to embed the
single-character-separator string splits the source performs). -/
def splitOnCharAux (c : Char) : List Char → List Char → List (List Char)
  | [], acc => [acc.reverse]
  | x :: xs, acc =>
    if x = c then acc.reverse :: splitOnCharAux c xs []
    else splitOnCharAux c xs (x :: acc)

/-- Embedding of Python `s.split(c)` for a one-character separator. -/
def splitOnChar (c : Char) (s : String) : List String :=
  (splitOnCharAux c s.data []).map (fun l => ⟨l⟩)

/-- Decimal digits to a number, used to embed Python `int(p)` on digit
strings. -/
def charsToNatAux : List Char → Nat → Option Nat
  | [], acc => some acc
  | c :: cs, acc =>
    if 48 ≤ c.toNat ∧ c.toNat ≤ 57 then charsToNatAux cs (acc * 10 + (c.toNat - 48))
    else none

/-- Embedding of Python `s.zfill(width)` for a sign-free string: left-pad with
`'0'` to the requested width. -/
def zfill (s : String) (width : Nat) : String :=
  if width ≤ s.length then s
  else ⟨List.replicate (width - s.length) '0'⟩ ++ s

/-- Embedding of `numpy.unique` on a list of group identifiers: the distinct
values in ascending order. -/
def np_unique (l : List Nat) : List Nat :=
  List.insertionSort (· ≤ ·) l.dedup

theorem decimalDigitsAux_eq_digits :
    ∀ fuel n, n ≤ fuel → decimalDigitsAux fuel n = Nat.digits 10 n := by
  intro fuel
  induction fuel with
  | zero =>
    intro n hn
    interval_cases n
    simp [decimalDigitsAux]
  | succ f ih =>
    intro n hn
    match n with
    | 0 => simp [decimalDigitsAux]
    | m + 1 =>
      rw [decimalDigitsAux, Nat.digits_def' (by norm_num : (1:ℕ) < 10) (Nat.succ_pos m)]
      congr 1
      refine ih _ ?_
      have h1 : (m + 1) / 10 < m + 1 := Nat.div_lt_self (Nat.succ_pos m) (by norm_num)
      omega

theorem length_decimalRepr (n : Nat) :
    (decimalRepr n).length = if n = 0 then 1 else (Nat.digits 10 n).length := by
  unfold decimalRepr
  split
  · rfl
  · rw [decimalDigitsAux_eq_digits n n le_rfl]
    simp [List.asString, String.length]

theorem mem_np_unique (l : List Nat) (x : Nat) : x ∈ np_unique l ↔ x ∈ l := by
  unfold np_unique
  rw [(List.perm_insertionSort (· ≤ ·) l.dedup).mem_iff, List.mem_dedup]

theorem np_unique_sorted (l : List Nat) : (np_unique l).Sorted (· ≤ ·) :=
  List.sorted_insertionSort (· ≤ ·) l.dedup

/-- The head of `np_unique` of a non-empty list is the minimum of the list. -/
theorem np_unique_head_min (l : List Nat) (h : l ≠ []) :
    ∃ m, (np_unique l).head? = some m ∧ m ∈ l ∧ ∀ x ∈ l, m ≤ x := by
  have hne : np_unique l ≠ [] := by
    intro hnil
    have : ∀ x, x ∈ l → False := by
      intro x hx
      have := (mem_np_unique l x).2 hx
      simp [hnil] at this
    cases l with
    | nil => exact h rfl
    | cons a t => exact this a (by simp)
  obtain ⟨m, t, hm⟩ := List.exists_cons_of_ne_nil hne
  refine ⟨m, by simp [hm], ?_, ?_⟩
  · exact (mem_np_unique l m).1 (by simp [hm])
  · intro x hx
    have hx' : x ∈ np_unique l := (mem_np_unique l x).2 hx
    rw [hm] at hx'
    rcases List.mem_cons.1 hx' with hx' | hx'
    · exact le_of_eq hx'.symm
    · have hs := np_unique_sorted l
      rw [hm] at hs
      exact (List.sorted_cons.1 hs).1 x hx'

/-! ### Collaborator interfaces (data model) -/

/-- Modelled from the spec: `pypeit.core.parse.parse_binning` is not under
`src/`; per the spec the binning string holds the "spectral,spatial" factors
("Binning: pixel-combination factor along spectral/spatial axes", CLI help
"Image binning in spectral and spatial directions"), so the parser splits the
comma-separated string into the integer factor pair, spectral first. -/
def parse_binning (binning : String) : List Nat :=
  (splitOnChar ',' binning).map (fun p => (charsToNatAux p.data 0).getD 0)

/-- The spectrograph descriptor produced by the registry: its detector count
and, for each 0-based detector index, `detector[i]['platescale']`. -/
structure Spectrograph where
  ndet : Nat
  platescale : Nat → ℚ
deriving Inhabited

/-- The pieces of the loaded reduction configuration (`PypeIt(pypeit_file)`)
that `main` reads: `rdx.spectrograph`, the `fitstbl['calib']` column, and the
metadata-table queries used at lines 77-83 of the source
(`find_frames('trace', calib_ID=g, index=True)`, `master_key(row)`,
`fitstbl['binning'][row]`, `frame_paths(rows)`). -/
structure ReductionConfig where
  spectrograph : Spectrograph
  calib : List Nat
  traceRows : Nat → List Nat
  masterKeyOf : Nat → String
  binningOf : Nat → String
  framePaths : List Nat → List String
deriving Inhabited

/-- The Python exceptions `main` can raise or swallow. -/
inductive Err where
  | fileNotFound (path : String)
  | valueError (group : Nat)
  | indexError
  | specError
  | typeError
  | buildError (det : Nat)
  | traceError (det : Nat)
  | saveError (det : Nat)
deriving DecidableEq, Repr

/-- Observable operations performed against the collaborators, in program
order.  `persist` records the master key and master directory handed to the
tracer whose `save` succeeded; `traceLegacy` records the plate scale handed to
`TraceSlits.run`. -/
inductive Event where
  | checkFile (path : String)
  | loadReduction (path : String)
  | loadSpectrograph (name : Option String)
  | findFrames (group : Nat)
  | buildTraceImage (det : Nat)
  | traceNew (det : Nat)
  | traceLegacy (det : Nat) (plate_scale : ℚ)
  | persist (det : Nat) (masterKey : String) (masterDir : String)
deriving DecidableEq, Repr

/-- The external world: file system, spectrograph registry, reduction loader,
and whether each collaborator call raises for a given detector. -/
structure Env where
  isfile : String → Bool
  cwd : String
  loadReduction : String → ReductionConfig
  loadSpectrograph : Option String → Except Unit Spectrograph
  buildFails : Nat → Bool
  newTraceFails : Nat → Bool
  newSaveFails : Nat → Bool
  legacyRunFails : Nat → Bool
  legacySaveFails : Nat → Bool

/-- The parsed command-line arguments (the fields of `args` that `main`
reads). -/
structure Args where
  pypeit_file : Option String
  trace_file : Option String
  group : Option Nat
  detector : Option Nat
  spectrograph : Option String
  binning : Option String
  redux_path : Option String
  master_dir : String
  use_new : Bool

/-! ### Path helpers (embeddings of the `os.path` calls used) -/

/-- Embedding of `os.path.split(p)[0]`: the directory part of a path. -/
def splitDir (p : String) : String :=
  let parts := splitOnChar '/' p
  if parts.length ≤ 1 then ""
  else
    let d := String.intercalate "/" parts.dropLast
    if d = "" then "/" else d

/-- Embedding of `os.path.abspath` (without `..`/`.` normalisation, which the
script never relies on): a relative path is resolved against the working
directory. -/
def abspath (cwd p : String) : String :=
  if p.data.head? = some '/' then p else cwd ++ "/" ++ p

/-- Embedding of `os.path.join` for the one two-argument use at line 103. -/
def pathJoin (a b : String) : String :=
  if b.data.head? = some '/' then b else a ++ "/" ++ b

/-! ### The embedded program -/

/-- Line 106 of the source: `'{0}_{1}'.format(master_key_base, str(det).zfill(2))`. -/
def master_key (base : String) (det : Nat) : String :=
  base ++ "_" ++ zfill (decimalRepr det) 2

/-- Line 116 of the source:
`parse.parse_binning(binning)[1]*spec.detector[det-1]['platescale']`. -/
def plate_scale (binning : String) (s : Spectrograph) (det : Nat) : ℚ :=
  ((parse_binning binning).getD 1 0 : ℚ) * s.platescale (det - 1)

/-- Line 79 of the source:
`'_'.join(rdx.fitstbl.master_key(tbl_rows[0]).split('_')[:2])`. -/
def masterKeyBaseOf (key : String) : String :=
  String.intercalate "_" ((splitOnChar '_' key).take 2)

/-- Line 72 of the source: the group to use is the first unique value of the
calib column when no explicit group is given, else the explicit group.  The
result is `none` when the table is empty and no group is given, which line 72
turns into an IndexError. -/
def resolvedGroup (calib : List Nat) (g : Option Nat) : Option Nat :=
  match g with
  | none => (np_unique calib).head?
  | some g0 => some g0

/-- The values lines 60-101 of the source compute before the detector loop. -/
structure Resolved where
  spec : Spectrograph
  master_key_base : String
  binning : String
  files : List String
  redux_path : String
deriving Inhabited

/-- Lines 60-101 of the source: input resolution.  Returns the event trace of
the collaborator calls made, and either the resolved values or the first
exception raised.  The `traceframe`/`slits`/`slitedges` parameter sets are
opaque values merely passed through to the collaborators, and are omitted. -/
def resolveInputs (env : Env) (a : Args) : List Event × Except Err Resolved :=
  match a.pypeit_file with
  | some pf =>
    -- lines 60-87
    if env.isfile pf then
      let pypeit_file := abspath env.cwd pf
      let redux_path := abspath env.cwd
        (match a.redux_path with
         | none => splitDir pypeit_file
         | some rp => rp)
      let rdx := env.loadReduction pypeit_file
      let evs := [Event.checkFile pf, Event.loadReduction pypeit_file]
      -- line 72
      match resolvedGroup rdx.calib a.group with
      | none => (evs, Except.error Err.indexError)
      | some group =>
        -- lines 73-74
        if group ∈ np_unique rdx.calib then
          -- line 77
          match rdx.traceRows group with
          | [] => (evs ++ [Event.findFrames group], Except.error Err.indexError)
          | row0 :: rest =>
            (evs ++ [Event.findFrames group],
             Except.ok
               { spec := rdx.spectrograph
                 master_key_base := masterKeyBaseOf (rdx.masterKeyOf row0)
                 binning := rdx.binningOf row0
                 files := rdx.framePaths (row0 :: rest)
                 redux_path := redux_path })
        else (evs, Except.error (Err.valueError group))
    else ([Event.checkFile pf], Except.error (Err.fileNotFound pf))
  | none =>
    -- lines 88-100
    match env.loadSpectrograph a.spectrograph with
    | Except.error _ =>
      ([Event.loadSpectrograph a.spectrograph], Except.error Err.specError)
    | Except.ok spec =>
      let evs := [Event.loadSpectrograph a.spectrograph]
      let binning := a.binning.getD "1,1"
      match a.trace_file with
      | none => (evs, Except.error Err.typeError)
      | some tf =>
        if env.isfile tf then
          let file0 := abspath env.cwd tf
          let redux_path := abspath env.cwd
            (match a.redux_path with
             | none => splitDir file0
             | some rp => rp)
          (evs ++ [Event.checkFile tf],
           Except.ok
             { spec := spec
               master_key_base := "A_1"
               binning := binning
               files := [file0]
               redux_path := redux_path })
        else (evs ++ [Event.checkFile tf], Except.error (Err.fileNotFound tf))

/-- Lines 104-135 of the source: the body of the detector loop for one
detector.  Returns the events performed and the exception that propagates out
of the iteration, if any: `TraceImage.build_image` failures and legacy-path
failures propagate, while on the new path the bare `except: pass` at lines
127-128 swallows any exception from `EdgeTraceSet` construction or
`edges.save()`. -/
def processDet (env : Env) (useNew : Bool) (r : Resolved) (masterDir : String)
    (det : Nat) : List Event × Option Err :=
  let mk := master_key r.master_key_base det
  if env.buildFails det then
    ([Event.buildTraceImage det], some (Err.buildError det))
  else
    let ps := plate_scale r.binning r.spec det
    if useNew then
      -- lines 119-128: try / except: pass
      if env.newTraceFails det then
        ([Event.buildTraceImage det, Event.traceNew det], none)
      else if env.newSaveFails det then
        ([Event.buildTraceImage det, Event.traceNew det], none)
      else
        ([Event.buildTraceImage det, Event.traceNew det,
          Event.persist det mk masterDir], none)
    else
      -- lines 129-135: no exception handling
      if env.legacyRunFails det then
        ([Event.buildTraceImage det, Event.traceLegacy det ps],
         some (Err.traceError det))
      else if env.legacySaveFails det then
        ([Event.buildTraceImage det, Event.traceLegacy det ps],
         some (Err.saveError det))
      else
        ([Event.buildTraceImage det, Event.traceLegacy det ps,
          Event.persist det mk masterDir], none)

/-- The detector loop (lines 104-135): run detectors in order, stopping at the
first propagating exception. -/
def runDetectors (env : Env) (useNew : Bool) (r : Resolved) (masterDir : String) :
    List Nat → List Event × Option Err
  | [] => ([], none)
  | det :: rest =>
    match processDet env useNew r masterDir det with
    | (evs, some e) => (evs, some e)
    | (evs, none) =>
      let (evs', e') := runDetectors env useNew r masterDir rest
      (evs ++ evs', e')

/-- Lines 50-137 of the source: `main`.  Returns the event trace and either
`0` (line 137) or the uncaught exception. -/
def main (env : Env) (a : Args) : List Event × Except Err Nat :=
  match resolveInputs env a with
  | (evs, Except.error e) => (evs, Except.error e)
  | (evs, Except.ok r) =>
    -- line 102: np.arange(spec.ndet)+1 if args.detector is None
    let detectors :=
      match a.detector with
      | none => List.range' 1 r.spec.ndet
      | some d => [d]
    -- line 103
    let master_dir := pathJoin r.redux_path a.master_dir
    match runDetectors env a.use_new r master_dir detectors with
    | (evs', some e) => (evs ++ evs', Except.error e)
    | (evs', none) => (evs ++ evs', Except.ok 0)

/-- The detectors whose results were persisted, in order, read off a trace. -/
def persistedDets (evs : List Event) : List Nat :=
  evs.filterMap (fun e =>
    match e with
    | Event.persist det _ _ => some det
    | _ => none)

/-- Whether an event is part of per-detector processing (the loop body),
as opposed to input resolution. -/
def isDetEvent : Event → Bool
  | Event.buildTraceImage _ => true
  | Event.traceNew _ => true
  | Event.traceLegacy _ _ => true
  | Event.persist _ _ _ => true
  | _ => false

/-! ### Concrete worlds used by the witnesses and counterexamples -/

/-- A three-detector spectrograph whose detectors all have platescale 0.2. -/
def specW : Spectrograph := { ndet := 3, platescale := fun _ => 1/5 }

/-- A world where every external call succeeds except that both tracers raise
for detector 2. -/
def envW : Env :=
  { isfile := fun _ => true
    cwd := "/home/user"
    loadReduction := fun _ => default
    loadSpectrograph := fun _ => Except.ok specW
    buildFails := fun _ => false
    newTraceFails := fun d => d == 2
    newSaveFails := fun _ => false
    legacyRunFails := fun d => d == 2
    legacySaveFails := fun _ => false }

/-- Raw-trace-file-mode arguments selecting the new algorithm. -/
def argsNewW : Args :=
  { pypeit_file := none
    trace_file := some "/data/sub/foo.fits"
    group := none
    detector := none
    spectrograph := some "shane_kast_blue"
    binning := none
    redux_path := none
    master_dir := "Masters"
    use_new := true }

/-- The same arguments on the legacy path. -/
def argsLegacyW : Args := { argsNewW with use_new := false }

/-- What lines 88-100 of the source resolve for `envW` and `argsNewW`. -/
def resW : Resolved :=
  { spec := specW
    master_key_base := "A_1"
    binning := "1,1"
    files := ["/data/sub/foo.fits"]
    redux_path := "/data/sub" }

/-- A loaded reduction configuration with calibration groups 3, 1, 2. -/
def rdxW : ReductionConfig :=
  { spectrograph := specW
    calib := [3, 1, 2]
    traceRows := fun _ => [0]
    masterKeyOf := fun _ => "A_1_DET01"
    binningOf := fun _ => "2,1"
    framePaths := fun _ => ["/data/red/t1.fits"] }

/-- `envW` with `rdxW` as the loaded reduction configuration. -/
def envRdxW : Env := { envW with loadReduction := fun _ => rdxW }

/-- Reduction-file-mode arguments with no explicit calibration group. -/
def argsRdxW : Args :=
  { pypeit_file := some "/data/red/run.pypeit"
    trace_file := none
    group := none
    detector := none
    spectrograph := none
    binning := none
    redux_path := none
    master_dir := "Masters"
    use_new := true }

/-- `argsRdxW` with an explicit group absent from the table. -/
def argsBadGroupW : Args := { argsRdxW with group := some 7 }

/-- `envW` with a file system on which no path exists. -/
def envMissingW : Env := { envW with isfile := fun _ => false }

/-! ### Helper lemmas about the detector loop and input resolution -/

theorem persistedDets_append (a b : List Event) :
    persistedDets (a ++ b) = persistedDets a ++ persistedDets b :=
  List.filterMap_append a b _

/-- On the new path, no exception escapes an iteration, and the iteration
persists exactly when neither the tracer nor the save raises (given that the
trace-image build succeeds, which is outside the try block). -/
theorem runDetectors_new (env : Env) (r : Resolved) (md : String) :
    ∀ dets : List Nat, (∀ d ∈ dets, env.buildFails d = false) →
      (runDetectors env true r md dets).2 = none ∧
      persistedDets (runDetectors env true r md dets).1 =
        dets.filter (fun d => !(env.newTraceFails d || env.newSaveFails d)) := by
  intro dets
  induction dets with
  | nil => intro _; exact ⟨rfl, rfl⟩
  | cons d rest ih =>
    intro hb
    have hbd : env.buildFails d = false := hb d (by simp)
    obtain ⟨h1, h2⟩ := ih (fun x hx => hb x (by simp [hx]))
    rcases hres : runDetectors env true r md rest with ⟨evs', e'⟩
    rw [hres] at h1 h2
    simp only at h1 h2
    simp only [persistedDets, Bool.not_or] at h2
    cases ht : env.newTraceFails d <;> cases hs : env.newSaveFails d <;>
      simp [runDetectors, processDet, hbd, ht, hs, hres, h1, h2,
        persistedDets_append, persistedDets, List.filter_cons]

/-- On the legacy path a tracer failure propagates: the run stops at the first
failing detector, every detector before it is persisted, and no detector after
it is even started. -/
theorem runDetectors_legacy (env : Env) (r : Resolved) (md : String) :
    ∀ (pre : List Nat) (df : Nat) (post : List Nat),
      (∀ d ∈ pre, env.buildFails d = false ∧ env.legacyRunFails d = false ∧
        env.legacySaveFails d = false) →
      env.buildFails df = false → env.legacyRunFails df = true →
      (runDetectors env false r md (pre ++ df :: post)).2 = some (Err.traceError df) ∧
      persistedDets (runDetectors env false r md (pre ++ df :: post)).1 = pre ∧
      ∀ d, Event.buildTraceImage d ∈ (runDetectors env false r md (pre ++ df :: post)).1 →
        d ∈ pre ∨ d = df := by
  intro pre
  induction pre with
  | nil =>
    intro df post _ hbdf hfdf
    refine ⟨?_, ?_, ?_⟩ <;>
      simp [runDetectors, processDet, hbdf, hfdf, persistedDets]
  | cons d rest ih =>
    intro df post hpre hbdf hfdf
    obtain ⟨hb, hr, hsv⟩ := hpre d (by simp)
    obtain ⟨h1, h2, h3⟩ := ih df post (fun x hx => hpre x (by simp [hx])) hbdf hfdf
    rcases hres : runDetectors env false r md (rest ++ df :: post) with ⟨evs', e'⟩
    rw [hres] at h1 h2 h3
    simp only at h1 h2 h3
    have hstep : runDetectors env false r md ((d :: rest) ++ df :: post) =
        ([Event.buildTraceImage d,
          Event.traceLegacy d (plate_scale r.binning r.spec d),
          Event.persist d (master_key r.master_key_base d) md] ++ evs', e') := by
      simp [runDetectors, processDet, hb, hr, hsv, hres]
    rw [hstep]
    refine ⟨h1, ?_, ?_⟩
    · rw [show ((d :: rest : List Nat)) = [d] ++ rest from rfl]
      rw [persistedDets_append, h2]
      simp [persistedDets]
    · intro x hx
      simp only [List.mem_append, List.mem_cons, List.not_mem_nil, or_false] at hx
      rcases hx with (hx | hx | hx) | hx
      · simp only [Event.buildTraceImage.injEq] at hx
        exact Or.inl (by simp [hx])
      · simp at hx
      · simp at hx
      · rcases h3 x hx with h | h
        · exact Or.inl (by simp [h])
        · exact Or.inr h

/-- Every `persist` event of a loop iteration carries the master directory the
loop was given. -/
theorem processDet_persist_md (env : Env) (un : Bool) (r : Resolved) (md : String)
    (det d : Nat) (mk md' : String)
    (h : Event.persist d mk md' ∈ (processDet env un r md det).1) : md' = md := by
  unfold processDet at h
  cases un <;> cases hb : env.buildFails det <;>
    cases h1 : env.newTraceFails det <;> cases h2 : env.newSaveFails det <;>
    cases h3 : env.legacyRunFails det <;> cases h4 : env.legacySaveFails det <;>
    rw [hb] at h <;> simp [h1, h2, h3, h4] at h <;> try exact h.2.2

/-- Every `persist` event of the loop carries the master directory the loop
was given. -/
theorem runDetectors_persist_md (env : Env) (un : Bool) (r : Resolved) (md : String) :
    ∀ (dets : List Nat) (d : Nat) (mk md' : String),
      Event.persist d mk md' ∈ (runDetectors env un r md dets).1 → md' = md := by
  intro dets
  induction dets with
  | nil => intro d mk md' h; simp [runDetectors] at h
  | cons x rest ih =>
    intro d mk md' h
    unfold runDetectors at h
    rcases hp : processDet env un r md x with ⟨evs, err⟩
    rw [hp] at h
    cases err with
    | some e =>
      simp only at h
      exact processDet_persist_md env un r md x d mk md' (by rw [hp]; exact h)
    | none =>
      rcases hrun : runDetectors env un r md rest with ⟨evs', e'⟩
      rw [hrun] at h
      simp only [List.mem_append] at h
      rcases h with h | h
      · exact processDet_persist_md env un r md x d mk md' (by rw [hp]; exact h)
      · exact ih d mk md' (by rw [hrun]; exact h)

/-- The only exceptions the loop can raise are per-detector build, trace and
save failures. -/
theorem processDet_err (env : Env) (un : Bool) (r : Resolved) (md : String)
    (det : Nat) (e : Err) (h : (processDet env un r md det).2 = some e) :
    e = Err.buildError det ∨ e = Err.traceError det ∨ e = Err.saveError det := by
  unfold processDet at h
  cases un <;> cases hb : env.buildFails det <;>
    cases h1 : env.newTraceFails det <;> cases h2 : env.newSaveFails det <;>
    cases h3 : env.legacyRunFails det <;> cases h4 : env.legacySaveFails det <;>
    rw [hb] at h <;> simp [h1, h2, h3, h4] at h <;> simp [h]

/-- The loop never raises a group-validation error. -/
theorem runDetectors_no_valueError (env : Env) (un : Bool) (r : Resolved) (md : String) :
    ∀ (dets : List Nat) (g : Nat),
      (runDetectors env un r md dets).2 ≠ some (Err.valueError g) := by
  intro dets
  induction dets with
  | nil => intro g h; simp [runDetectors] at h
  | cons x rest ih =>
    intro g h
    unfold runDetectors at h
    rcases hp : processDet env un r md x with ⟨evs, err⟩
    rw [hp] at h
    cases err with
    | some e =>
      simp only at h
      have := processDet_err env un r md x e (by rw [hp])
      rcases h with h
      injection h with h
      subst h
      rcases this with h | h | h <;> simp at h
    | none =>
      rcases hrun : runDetectors env un r md rest with ⟨evs', e'⟩
      rw [hrun] at h
      simp only at h
      exact ih g (by rw [hrun]; exact h)

/-- Input resolution performs no per-detector processing. -/
theorem resolveInputs_no_det (env : Env) (a : Args) :
    ∀ e ∈ (resolveInputs env a).1, isDetEvent e = false := by
  intro e he
  unfold resolveInputs at he
  rcases hpf : a.pypeit_file with _ | pf <;> rw [hpf] at he <;> dsimp only at he
  · rcases hls : env.loadSpectrograph a.spectrograph with u | s <;>
      rw [hls] at he <;> dsimp only at he
    · simp at he
      subst he
      rfl
    · rcases htf : a.trace_file with _ | tf <;> rw [htf] at he <;> dsimp only at he
      · simp at he
        subst he
        rfl
      · cases hf : env.isfile tf <;> rw [hf] at he <;> simp at he <;>
          rcases he with he | he <;> subst he <;> rfl
  · cases hf : env.isfile pf <;> rw [hf] at he <;> try dsimp only at he
    · simp at he
      subst he
      rfl
    · rcases hg : resolvedGroup (env.loadReduction (abspath env.cwd pf)).calib a.group
          with _ | g <;> rw [hg] at he <;> dsimp only at he
      · simp at he
        rcases he with he | he <;> subst he <;> rfl
      · by_cases hmem : g ∈ np_unique (env.loadReduction (abspath env.cwd pf)).calib
        · rw [if_pos hmem] at he
          rcases htr : (env.loadReduction (abspath env.cwd pf)).traceRows g
              with _ | ⟨r0, rest⟩ <;> rw [htr] at he <;> simp at he <;>
            rcases he with he | he | he <;> subst he <;> rfl
        · rw [if_neg hmem] at he
          simp at he
          rcases he with he | he <;> subst he <;> rfl

/-- A trace with no per-detector events persists nothing. -/
theorem persistedDets_nil_of_no_det (evs : List Event)
    (h : ∀ e ∈ evs, isDetEvent e = false) : persistedDets evs = [] := by
  induction evs with
  | nil => rfl
  | cons e rest ih =>
    have he := h e (by simp)
    have hrest := ih (fun x hx => h x (by simp [hx]))
    cases e <;> simp [persistedDets] at hrest ⊢ <;> simp [isDetEvent] at he <;>
      exact hrest

/-- Every event of input resolution appears in the trace of `main`. -/
theorem resolve_events_in_main (env : Env) (a : Args) :
    ∀ e ∈ (resolveInputs env a).1, e ∈ (main env a).1 := by
  intro e he
  unfold main
  rcases h : resolveInputs env a with ⟨evs, res⟩
  rw [h] at he
  simp only at he
  cases res with
  | error err => simpa using he
  | ok r =>
    rcases hrun : runDetectors env a.use_new r
        (pathJoin r.redux_path a.master_dir)
        (match a.detector with
         | none => List.range' 1 r.spec.ndet
         | some d => [d]) with ⟨evs', e'⟩
    cases e' <;> simp [hrun] <;> exact Or.inl he

/-- `zfill` to width two of a decimal rendering pads exactly the one-digit
numbers. -/
theorem zfill_decimalRepr_two (n : Nat) :
    zfill (decimalRepr n) 2 = if n < 10 then "0" ++ decimalRepr n else decimalRepr n := by
  by_cases h0 : n = 0
  · subst h0
    decide
  · have hlen : (decimalRepr n).length = (Nat.digits 10 n).length := by
      rw [length_decimalRepr, if_neg h0]
    have hdl : (Nat.digits 10 n).length = Nat.log 10 n + 1 :=
      Nat.digits_len 10 n (by norm_num) h0
    by_cases hn : n < 10
    · have hlog : Nat.log 10 n = 0 := Nat.log_eq_zero_iff.mpr (Or.inl hn)
      have hl1 : (decimalRepr n).length = 1 := by omega
      rw [if_pos hn]
      unfold zfill
      rw [hl1]
      rfl
    · have hlog : 0 < Nat.log 10 n := Nat.log_pos (by norm_num) (le_of_not_lt hn)
      have hl2 : 2 ≤ (decimalRepr n).length := by omega
      rw [if_neg hn]
      unfold zfill
      rw [if_pos hl2]

/-! ### The claims -/

/-- C5: for every detector index, the per-detector master key is the base
token, an underscore, and the detector index rendered in decimal zero-padded
to width 2; in particular base "A_1" with detector 3 yields "A_1_03". -/
theorem master_key_is_zero_padded :
    (∀ base det, master_key base det =
        base ++ "_" ++ (if det < 10 then "0" ++ decimalRepr det else decimalRepr det)) ∧
    master_key "A_1" 3 = "A_1_03" := by
  constructor
  · intro base det
    unfold master_key
    rw [zfill_decimalRepr_two det]
  · decide

/-- C6: the plate scale handed to the tracer is the binning string's spatial
factor — the second parsed component — times the detector's platescale
constant. -/
theorem plate_scale_uses_spatial_factor (binning : String) (s : Spectrograph)
    (det bspec bspat : Nat) (hparse : parse_binning binning = [bspec, bspat]) :
    plate_scale binning s det = (bspat : ℚ) * s.platescale (det - 1) := by
  unfold plate_scale
  rw [hparse]
  rfl

/-- Witness for C6: binning "2,1" with platescale 0.2 gives plate scale
1 × 0.2 = 0.2. -/
theorem plate_scale_uses_spatial_factor_witness :
    parse_binning "2,1" = [2, 1] ∧ plate_scale "2,1" specW 3 = 1/5 := by
  have hp : parse_binning "2,1" = [2, 1] := by decide
  have h := plate_scale_uses_spatial_factor "2,1" specW 3 2 1 hp
  refine ⟨hp, ?_⟩
  rw [h]
  norm_num [specW]

/-- C9: in raw-trace-file mode the group option is never read — two runs that
differ only in the group option have identical traces and results. -/
theorem raw_mode_ignores_group (env : Env) (a : Args) (g₁ g₂ : Option Nat)
    (hraw : a.pypeit_file = none) :
    main env { a with group := g₁ } = main env { a with group := g₂ } := by
  obtain ⟨pf, tf, g, dt, sp, bn, rp, md, un⟩ := a
  replace hraw : pf = none := hraw
  subst hraw
  rfl

/-- Witness for C9 at a concrete world and argument vector. -/
theorem raw_mode_ignores_group_witness :
    main envW { argsNewW with group := some 5 } =
      main envW { argsNewW with group := none } :=
  raw_mode_ignores_group envW argsNewW (some 5) none rfl

/-- C1: on the new-algorithm path, for a run over detectors 1..N whose
trace-image builds succeed, any exception the edge tracer raises during
construction or persistence for some detector is discarded, the loop goes on,
and the run returns 0 with exactly the non-raising detectors persisted. -/
theorem new_path_swallows_tracer_errors (env : Env) (a : Args) (evs₀ : List Event)
    (r : Resolved) (hres : resolveInputs env a = (evs₀, Except.ok r))
    (hnew : a.use_new = true) (hdet : a.detector = none)
    (hbuild : ∀ d, env.buildFails d = false) :
    (main env a).2 = Except.ok 0 ∧
    persistedDets (main env a).1 =
      (List.range' 1 r.spec.ndet).filter
        (fun d => !(env.newTraceFails d || env.newSaveFails d)) := by
  have hloop := runDetectors_new env r (pathJoin r.redux_path a.master_dir)
    (List.range' 1 r.spec.ndet) (fun d _ => hbuild d)
  have hevs0 : persistedDets evs₀ = [] := by
    apply persistedDets_nil_of_no_det
    intro e he
    apply resolveInputs_no_det env a
    rw [hres]
    exact he
  unfold main
  rw [hres]
  dsimp only
  rw [hdet]
  dsimp only
  rw [hnew]
  rcases hrun : runDetectors env true r (pathJoin r.redux_path a.master_dir)
      (List.range' 1 r.spec.ndet) with ⟨evs', e'⟩
  rw [hrun] at hloop
  simp only at hloop
  obtain ⟨h1, h2⟩ := hloop
  subst h1
  dsimp only
  exact ⟨rfl, by rw [persistedDets_append, hevs0, h2]; rfl⟩

/-- Witness for C1: three detectors, the tracer raises on detector 2 only;
detectors 1 and 3 are persisted and the run returns 0. -/
theorem new_path_swallows_tracer_errors_witness :
    (main envW argsNewW).2 = Except.ok 0 ∧
    persistedDets (main envW argsNewW).1 = [1, 3] := by
  have h := new_path_swallows_tracer_errors envW argsNewW
      [Event.loadSpectrograph (some "shane_kast_blue"),
       Event.checkFile "/data/sub/foo.fits"]
      resW rfl rfl rfl (fun d => rfl)
  exact ⟨h.1, by rw [h.2]; decide⟩

/-- C2: on the legacy path a tracer exception propagates: with detectors
1..N split as pre ++ df :: post where everything before df succeeds and the
tracer raises on df, the run aborts with that error, exactly the detectors
before df are persisted, and no detector after df is even started. -/
theorem legacy_path_aborts_on_tracer_error (env : Env) (a : Args) (evs₀ : List Event)
    (r : Resolved) (hres : resolveInputs env a = (evs₀, Except.ok r))
    (hleg : a.use_new = false) (hdet : a.detector = none)
    (pre : List Nat) (df : Nat) (post : List Nat)
    (hsplit : List.range' 1 r.spec.ndet = pre ++ df :: post)
    (hpre : ∀ d ∈ pre, env.buildFails d = false ∧ env.legacyRunFails d = false ∧
      env.legacySaveFails d = false)
    (hbdf : env.buildFails df = false) (hfdf : env.legacyRunFails df = true) :
    (main env a).2 = Except.error (Err.traceError df) ∧
    persistedDets (main env a).1 = pre ∧
    ∀ d ∈ post, Event.buildTraceImage d ∉ (main env a).1 := by
  have hloop := runDetectors_legacy env r (pathJoin r.redux_path a.master_dir)
    pre df post hpre hbdf hfdf
  have hnodup : (pre ++ df :: post).Nodup := by
    rw [← hsplit]
    exact List.nodup_range' 1 r.spec.ndet
  have hevs0 : persistedDets evs₀ = [] := by
    apply persistedDets_nil_of_no_det
    intro e he
    apply resolveInputs_no_det env a
    rw [hres]
    exact he
  unfold main
  rw [hres]
  dsimp only
  rw [hdet]
  dsimp only
  rw [hleg, hsplit]
  rcases hrun : runDetectors env false r (pathJoin r.redux_path a.master_dir)
      (pre ++ df :: post) with ⟨evs', e'⟩
  rw [hrun] at hloop
  simp only at hloop
  obtain ⟨h1, h2, h3⟩ := hloop
  subst h1
  dsimp only
  refine ⟨rfl, ?_, ?_⟩
  · rw [persistedDets_append, hevs0, h2]
    rfl
  · intro d hdpost hmem
    rcases List.mem_append.1 hmem with hm | hm
    · have hd := resolveInputs_no_det env a (Event.buildTraceImage d)
        (by rw [hres]; exact hm)
      simp [isDetEvent] at hd
    · rcases h3 d hm with h | h
      · exact (List.disjoint_of_nodup_append hnodup) h (List.mem_cons_of_mem df hdpost)
      · subst h
        exact (List.nodup_cons.1 hnodup.of_append_right).1 hdpost

/-- Witness for C2: three detectors on the legacy path, the tracer raises on
detector 2; detector 1 is persisted, detector 3 is never started, the run
aborts with the tracer error. -/
theorem legacy_path_aborts_on_tracer_error_witness :
    (main envW argsLegacyW).2 = Except.error (Err.traceError 2) ∧
    persistedDets (main envW argsLegacyW).1 = [1] ∧
    Event.buildTraceImage 3 ∉ (main envW argsLegacyW).1 := by
  have h := legacy_path_aborts_on_tracer_error envW argsLegacyW
      [Event.loadSpectrograph (some "shane_kast_blue"),
       Event.checkFile "/data/sub/foo.fits"]
      resW rfl rfl rfl [1] 2 [3] (by decide) (by decide) rfl rfl
  exact ⟨h.1, h.2.1, h.2.2 3 (by simp)⟩

/-- C3: in reduction-file mode with no explicit group, the group the run
looks up frames for is the minimum of the metadata table's group column. -/
theorem default_group_is_min (env : Env) (a : Args) (pf : String)
    (hpf : a.pypeit_file = some pf) (hfile : env.isfile pf = true)
    (hg : a.group = none)
    (hne : (env.loadReduction (abspath env.cwd pf)).calib ≠ []) :
    ∃ m, Event.findFrames m ∈ (main env a).1 ∧
      m ∈ (env.loadReduction (abspath env.cwd pf)).calib ∧
      ∀ x ∈ (env.loadReduction (abspath env.cwd pf)).calib, m ≤ x := by
  obtain ⟨m, hhead, hmem, hmin⟩ :=
    np_unique_head_min (env.loadReduction (abspath env.cwd pf)).calib hne
  refine ⟨m, ?_, hmem, hmin⟩
  apply resolve_events_in_main
  have hrg : resolvedGroup (env.loadReduction (abspath env.cwd pf)).calib a.group
      = some m := by
    rw [hg]
    unfold resolvedGroup
    exact hhead
  unfold resolveInputs
  rw [hpf]
  dsimp only
  rw [if_pos hfile, hrg]
  dsimp only
  rw [if_pos ((mem_np_unique _ m).2 hmem)]
  rcases htr : (env.loadReduction (abspath env.cwd pf)).traceRows m
      with _ | ⟨r0, rest⟩ <;> simp

/-- Witness for C3: group column 3, 1, 2 with no explicit group selects
group 1. -/
theorem default_group_is_min_witness :
    Event.findFrames 1 ∈ (main envRdxW argsRdxW).1 := by
  obtain ⟨m, h1, h2, h3⟩ := default_group_is_min envRdxW argsRdxW
    "/data/red/run.pypeit" rfl rfl rfl (by decide)
  have hcal : (envRdxW.loadReduction
      (abspath envRdxW.cwd "/data/red/run.pypeit")).calib = [3, 1, 2] := rfl
  rw [hcal] at h2 h3
  have hle := h3 1 (by simp)
  have : m = 1 := by
    simp at h2
    omega
  rw [this] at h1
  exact h1

/-- C4: in reduction-file mode, a resolved group absent from the table's
group values fails the run with the validation error before any trace image
is built or any detector is processed. -/
theorem invalid_group_fails_before_processing (env : Env) (a : Args)
    (pf : String) (g : Nat)
    (hpf : a.pypeit_file = some pf) (hfile : env.isfile pf = true)
    (hg : resolvedGroup (env.loadReduction (abspath env.cwd pf)).calib a.group
      = some g)
    (hmem : g ∉ np_unique (env.loadReduction (abspath env.cwd pf)).calib) :
    (main env a).2 = Except.error (Err.valueError g) ∧
    ∀ e ∈ (main env a).1, isDetEvent e = false := by
  have hres : resolveInputs env a =
      ([Event.checkFile pf, Event.loadReduction (abspath env.cwd pf)],
       Except.error (Err.valueError g)) := by
    unfold resolveInputs
    rw [hpf]
    dsimp only
    rw [if_pos hfile, hg]
    dsimp only
    rw [if_neg hmem]
  unfold main
  rw [hres]
  dsimp only
  refine ⟨rfl, ?_⟩
  intro e he
  simp at he
  rcases he with rfl | rfl <;> rfl

/-- Witness for C4: explicit group 7 against group column 3, 1, 2 fails with
the validation error and builds no trace image. -/
theorem invalid_group_fails_before_processing_witness :
    (main envRdxW argsBadGroupW).2 = Except.error (Err.valueError 7) ∧
    Event.buildTraceImage 1 ∉ (main envRdxW argsBadGroupW).1 := by
  have h := invalid_group_fails_before_processing envRdxW argsBadGroupW
    "/data/red/run.pypeit" 7 rfl rfl rfl (by decide)
  exact ⟨h.1, fun hmem => by simpa [isDetEvent] using h.2 _ hmem⟩

/-- With no explicit group and a non-empty group column, input resolution
cannot raise the validation error. -/
theorem resolveInputs_default_group_no_valueError (env : Env) (a : Args)
    (pf : String) (hpf : a.pypeit_file = some pf) (hg : a.group = none)
    (hne : (env.loadReduction (abspath env.cwd pf)).calib ≠ []) :
    ∀ g, (resolveInputs env a).2 ≠ Except.error (Err.valueError g) := by
  intro g h
  obtain ⟨m, hhead, hmem, hmin⟩ :=
    np_unique_head_min (env.loadReduction (abspath env.cwd pf)).calib hne
  have hrg : resolvedGroup (env.loadReduction (abspath env.cwd pf)).calib a.group
      = some m := by
    rw [hg]
    unfold resolvedGroup
    exact hhead
  unfold resolveInputs at h
  rw [hpf] at h
  dsimp only at h
  by_cases hf : env.isfile pf = true
  · rw [if_pos hf, hrg] at h
    dsimp only at h
    rw [if_pos ((mem_np_unique _ m).2 hmem)] at h
    rcases htr : (env.loadReduction (abspath env.cwd pf)).traceRows m
        with _ | ⟨r0, rest⟩ <;> rw [htr] at h <;> simp at h
  · rw [if_neg hf] at h
    simp at h

/-- C10: in reduction-file mode with no explicit group and a non-empty group
column, the validation-error branch is unreachable: the run never fails with
the group-validation error. -/
theorem default_group_never_fails_validation (env : Env) (a : Args)
    (pf : String) (hpf : a.pypeit_file = some pf) (hg : a.group = none)
    (hne : (env.loadReduction (abspath env.cwd pf)).calib ≠ []) :
    ∀ g, (main env a).2 ≠ Except.error (Err.valueError g) := by
  intro g hcontra
  unfold main at hcontra
  rcases hres : resolveInputs env a with ⟨evs, res⟩
  rw [hres] at hcontra
  dsimp only at hcontra
  cases res with
  | error e =>
    dsimp only at hcontra
    injection hcontra with h
    apply resolveInputs_default_group_no_valueError env a pf hpf hg hne g
    rw [hres, h]
  | ok r =>
    dsimp only at hcontra
    rcases hrun : runDetectors env a.use_new r (pathJoin r.redux_path a.master_dir)
        (match a.detector with
         | none => List.range' 1 r.spec.ndet
         | some d => [d]) with ⟨evs', e'⟩
    rw [hrun] at hcontra
    cases e' with
    | none => simp at hcontra
    | some e =>
      dsimp only at hcontra
      injection hcontra with h
      apply runDetectors_no_valueError env a.use_new r
        (pathJoin r.redux_path a.master_dir)
        (match a.detector with
         | none => List.range' 1 r.spec.ndet
         | some d => [d]) g
      rw [hrun, h]

/-- Witness for C10 at the concrete reduction world. -/
theorem default_group_never_fails_validation_witness :
    (main envRdxW argsRdxW).2 ≠ Except.error (Err.valueError 1) :=
  default_group_never_fails_validation envRdxW argsRdxW "/data/red/run.pypeit"
    rfl rfl (by decide) 1

/-- When input resolution succeeds with no explicit output root, the resolved
output root is the input file's containing directory (the reduction file's in
reduction-file mode, the trace file's in raw mode). -/
theorem resolveInputs_ok_redux_path (env : Env) (a : Args) (evs : List Event)
    (r : Resolved) (h : resolveInputs env a = (evs, Except.ok r))
    (hrp : a.redux_path = none) :
    ∃ f, (a.pypeit_file = some f ∨ (a.pypeit_file = none ∧ a.trace_file = some f)) ∧
      r.redux_path = abspath env.cwd (splitDir (abspath env.cwd f)) := by
  unfold resolveInputs at h
  rcases hpf : a.pypeit_file with _ | pf <;> rw [hpf] at h <;> dsimp only at h
  · rcases hls : env.loadSpectrograph a.spectrograph with u | s <;>
      rw [hls] at h <;> dsimp only at h
    · simp at h
    · rcases htf : a.trace_file with _ | tf <;> rw [htf] at h <;> dsimp only at h
      · simp at h
      · by_cases hf : env.isfile tf = true
        · rw [if_pos hf, hrp] at h
          dsimp only at h
          refine ⟨tf, Or.inr ⟨rfl, rfl⟩, ?_⟩
          injection h with h1 h2
          injection h2 with h2
          rw [← h2]
        · rw [if_neg hf] at h
          simp at h
  · by_cases hf : env.isfile pf = true
    · rw [if_pos hf, hrp] at h
      dsimp only at h
      rcases hg : resolvedGroup (env.loadReduction (abspath env.cwd pf)).calib a.group
          with _ | g <;> rw [hg] at h <;> dsimp only at h
      · simp at h
      · by_cases hmem : g ∈ np_unique (env.loadReduction (abspath env.cwd pf)).calib
        · rw [if_pos hmem] at h
          rcases htr : (env.loadReduction (abspath env.cwd pf)).traceRows g
              with _ | ⟨r0, rest⟩ <;> rw [htr] at h <;> dsimp only at h
          · simp at h
          · refine ⟨pf, Or.inl rfl, ?_⟩
            injection h with h1 h2
            injection h2 with h2
            rw [← h2]
        · rw [if_neg hmem] at h
          simp at h
    · rw [if_neg hf] at h
      simp at h

/-- C7 (counterexample): the claim says raw mode defaults the output root to
the current working directory; here the working directory is "/home/user" but
the run persists into the trace file's directory "/data/sub" instead. -/
theorem redux_default_not_cwd :
    Event.persist 1 "A_1_01" "/data/sub/Masters" ∈ (main envW argsNewW).1 ∧
    Event.persist 1 "A_1_01" (pathJoin envW.cwd argsNewW.master_dir)
      ∉ (main envW argsNewW).1 ∧
    pathJoin envW.cwd argsNewW.master_dir = "/home/user/Masters" := by
  decide

/-- C7 (amended): with no explicit output root, every persisted result lands
in the master subdirectory of the input file's containing directory — the
reduction file's directory in reduction-file mode and the trace file's
directory (not the working directory) in raw mode. -/
theorem redux_default_is_input_file_dir (env : Env) (a : Args)
    (hrp : a.redux_path = none) :
    ∀ d mk md, Event.persist d mk md ∈ (main env a).1 →
      ∃ f, (a.pypeit_file = some f ∨ (a.pypeit_file = none ∧ a.trace_file = some f)) ∧
        md = pathJoin (abspath env.cwd (splitDir (abspath env.cwd f))) a.master_dir := by
  intro d mk md hmem
  unfold main at hmem
  rcases hres : resolveInputs env a with ⟨evs, res⟩
  rw [hres] at hmem
  cases res with
  | error e =>
    dsimp only at hmem
    have := resolveInputs_no_det env a (Event.persist d mk md) (by rw [hres]; exact hmem)
    simp [isDetEvent] at this
  | ok r =>
    dsimp only at hmem
    rcases hrun : runDetectors env a.use_new r (pathJoin r.redux_path a.master_dir)
        (match a.detector with
         | none => List.range' 1 r.spec.ndet
         | some d => [d]) with ⟨evs', e'⟩
    rw [hrun] at hmem
    obtain ⟨f, hfile, hpath⟩ := resolveInputs_ok_redux_path env a evs r hres hrp
    have hin : Event.persist d mk md ∈ evs' := by
      cases e' <;> dsimp only at hmem <;>
        rcases List.mem_append.1 hmem with hm | hm <;>
        first
          | exact hm
          | (have hnd := resolveInputs_no_det env a (Event.persist d mk md)
              (by rw [hres]; exact hm)
             simp [isDetEvent] at hnd)
    have hmd := runDetectors_persist_md env a.use_new r
      (pathJoin r.redux_path a.master_dir)
      (match a.detector with
       | none => List.range' 1 r.spec.ndet
       | some d => [d]) d mk md (by rw [hrun]; exact hin)
    exact ⟨f, hfile, by rw [hmd, hpath]⟩

/-- Witness for the amended C7: the persisted master directory for the
concrete raw-mode run equals the trace file's directory joined with the
master subdirectory. -/
theorem redux_default_is_input_file_dir_witness :
    Event.persist 1 "A_1_01" "/data/sub/Masters" ∈ (main envW argsNewW).1 ∧
    "/data/sub/Masters" =
      pathJoin (abspath envW.cwd (splitDir (abspath envW.cwd "/data/sub/foo.fits")))
        argsNewW.master_dir := by
  have hmem : Event.persist 1 "A_1_01" "/data/sub/Masters" ∈ (main envW argsNewW).1 := by
    decide
  obtain ⟨f, hf, hmd⟩ := redux_default_is_input_file_dir envW argsNewW rfl
    1 "A_1_01" "/data/sub/Masters" hmem
  refine ⟨hmem, ?_⟩
  rcases hf with hf | ⟨_, hf⟩
  · have hnone : (none : Option String) = some f := hf
    exact Option.noConfusion hnone
  · have hsome : some "/data/sub/foo.fits" = some f := hf
    injection hsome with hsome
    rw [hsome]
    exact hmd

/-- C8 (counterexample): the claim says a missing trace file fails before the
spectrograph identifier is resolved; here the run does fail with the
missing-file error, yet its trace shows the spectrograph was resolved first. -/
theorem missing_file_error_after_spectrograph :
    (main envMissingW argsNewW).2 =
      Except.error (Err.fileNotFound "/data/sub/foo.fits") ∧
    Event.loadSpectrograph (some "shane_kast_blue") ∈ (main envMissingW argsNewW).1 :=
  ⟨rfl, by decide⟩

/-- C8 (amended): in raw mode a missing trace file fails the run with the
missing-file error before any per-detector processing — but after the
spectrograph identifier is resolved, whose own failure takes precedence. -/
theorem missing_trace_file_fails_before_processing (env : Env) (a : Args)
    (tf : String) (s : Spectrograph)
    (hpf : a.pypeit_file = none) (htf : a.trace_file = some tf)
    (hls : env.loadSpectrograph a.spectrograph = Except.ok s)
    (hfile : env.isfile tf = false) :
    (main env a).2 = Except.error (Err.fileNotFound tf) ∧
    Event.loadSpectrograph a.spectrograph ∈ (main env a).1 ∧
    ∀ e ∈ (main env a).1, isDetEvent e = false := by
  have hres : resolveInputs env a =
      ([Event.loadSpectrograph a.spectrograph, Event.checkFile tf],
       Except.error (Err.fileNotFound tf)) := by
    unfold resolveInputs
    rw [hpf]
    dsimp only
    rw [hls]
    dsimp only
    rw [htf]
    dsimp only
    rw [if_neg (by rw [hfile]; exact Bool.false_ne_true)]
    rfl
  unfold main
  rw [hres]
  dsimp only
  refine ⟨rfl, by simp, ?_⟩
  intro e he
  simp at he
  rcases he with rfl | rfl <;> rfl

/-- Witness for the amended C8 at the concrete world with no files. -/
theorem missing_trace_file_fails_before_processing_witness :
    (main envMissingW argsNewW).2 =
      Except.error (Err.fileNotFound "/data/sub/foo.fits") ∧
    Event.buildTraceImage 1 ∉ (main envMissingW argsNewW).1 := by
  have h := missing_trace_file_fails_before_processing envMissingW argsNewW
    "/data/sub/foo.fits" specW rfl rfl rfl rfl
  exact ⟨h.1, fun hmem => by simpa [isDetEvent] using h.2.2 _ hmem⟩

end TraceEdges
